import Mathlib

/-!
Verification of the iota-tangle-peerer reconciler (`main.go`).

The program is a sidecar that keeps one peering entry on a "main" hornet
node reconciled: it derives a multiaddress from a key file and its node
IP, then in a loop lists the main node's peers, deletes stale records
carrying its alias, and re-creates the peering via POST.

We embed the decision logic shallowly: all I/O (the k8s pod List call
and every HTTP exchange with the hornet REST API) is represented by its
observable outcome, passed in as data, and `tryPeering` returns the
ordered trace of HTTP calls it issues together with its boolean result.
-/

namespace IotaPeerer

/-- A JSON value as far as the peer records are concerned.  Go decodes
the GET body into `[]map[string]interface{}`; field reads use type
assertions (`.(string)`, `.([]interface{})`) which succeed or fail by
dynamic type, modelled here by the constructor. -/
inductive JVal where
  | jstr (s : String)
  | jarr (xs : List JVal)
  | jnum (n : Int)
  | jbool (b : Bool)
  | jnull

/-- A peer record: a JSON object, i.e. an association list of fields
(mirrors Go `map[string]interface{}`; first binding wins). -/
abbrev Peer := List (String × JVal)

/-- Field read `peer["k"]`. -/
def Peer.lookup (p : Peer) (k : String) : Option JVal :=
  match p with
  | [] => none
  | (k2, v) :: rest => if k2 = k then some v else Peer.lookup rest k

/-- The Go pattern `s, ok := peer["k"].(string)`: the field is present
and is a string. -/
def Peer.strField (p : Peer) (k : String) : Option String :=
  match p.lookup k with
  | some (.jstr s) => some s
  | _ => none

/-- Function `getMultiaddressFromPeer` (main.go): read field `multiAddress`,
assert it is a list, require it nonempty, assert its first element is a
string. -/
def getMultiaddressFromPeer (peer : Peer) : Option String :=
  match peer.lookup "multiAddress" with
  | none => none
  | some raw =>
    match raw with
    | .jarr [] => none
    | .jarr (x :: _) =>
      match x with
      | .jstr s => some s
      | _ => none
    | _ => none

/-- One HTTP call issued to the main node's hornet REST API, with the
data that distinguishes it: DELETE is keyed by the record id, POST
carries the JSON payload `{multiAddress, alias}`. -/
inductive Call where
  | getPeers
  | deletePeer (id : String)
  | postPeer (multiAddress peerAlias : String)
  deriving DecidableEq, Repr

def Call.isDelete : Call → Bool
  | .deletePeer _ => true
  | _ => false

def Call.isPost : Call → Bool
  | .postPeer _ _ => true
  | _ => false

/-- Remote responses observed during one cycle.  `none` models a
transport failure (`http.DefaultClient.Do` returning an error); `some
st` a response with HTTP status `st`.  The GET body is modelled already
decoded; `none` there stands for an unparseable body (or a read
failure), both of which abort the cycle identically in the source. -/
structure RemoteOracle where
  listPeers : Option (Nat × Option (List Peer))
  deletePeer : String → Option Nat
  postPeer : Option Nat

/-- A pod as far as `tryPeering` reads it: `pod.Status.PodIP`. -/
structure Pod where
  podIP : String
  deriving DecidableEq, Repr

/-- Outcome of the k8s `Pods(ns).List` call. -/
inductive K8sResult where
  | err
  | ok (pods : List Pod)

/-- The peer-scanning loop of `tryPeering` followed by the create step.
For each record whose `alias` field equals `myNodeName`: a missing
`multiAddress`/`id` field aborts the cycle (return false); an address
reconstructing (first advertised address + "/p2p/" + id) to the desired
`multiaddress` ends the cycle successfully with no further calls; any
other address is DELETEd (expecting 204, anything else aborts) and the
scan continues.  When the scan falls off the end, one POST
`{multiAddress, alias}` is issued and the cycle succeeds iff it returns
status 200.  `calls` accumulates the trace in order. -/
def peerLoop (o : RemoteOracle) (myNodeName multiaddress : String) :
    List Peer → List Call → List Call × Bool
  | [], calls =>
    let c := Call.postPeer multiaddress myNodeName
    match o.postPeer with
    | none => (calls ++ [c], false)
    | some st => (calls ++ [c], st == 200)
  | peer :: rest, calls =>
    match peer.strField "alias" with
    | some a =>
      if a = myNodeName then
        match getMultiaddressFromPeer peer with
        | none => (calls, false)
        | some multiaddressInMain =>
          match peer.strField "id" with
          | none => (calls, false)
          | some peerIdInMain =>
            if multiaddressInMain ++ "/p2p/" ++ peerIdInMain = multiaddress then
              (calls, true)
            else
              let c := Call.deletePeer peerIdInMain
              match o.deletePeer peerIdInMain with
              | none => (calls ++ [c], false)
              | some st =>
                if st = 204 then
                  peerLoop o myNodeName multiaddress rest (calls ++ [c])
                else (calls ++ [c], false)
      else peerLoop o myNodeName multiaddress rest calls
    | none => peerLoop o myNodeName multiaddress rest calls

/-- Function `tryPeering` (main.go): resolve the main hornet pod (exactly one
match with a non-empty IP, else fail with no HTTP call), GET the peer
list (status must be 200 and the body must parse), then run the
scan/delete loop and the create step.  Returns the ordered trace of
calls to the peering service and the success flag. -/
def tryPeering (k8s : K8sResult) (o : RemoteOracle)
    (myNodeName multiaddress : String) : List Call × Bool :=
  match k8s with
  | .err => ([], false)
  | .ok pods =>
    match pods with
    | [mainHornet] =>
      if mainHornet.podIP = "" then ([], false)
      else
        match o.listPeers with
        | none => ([Call.getPeers], false)
        | some (status, body) =>
          if status = 200 then
            match body with
            | none => ([Call.getPeers], false)
            | some peers => peerLoop o myNodeName multiaddress peers [Call.getPeers]
          else ([Call.getPeers], false)
    | _ => ([], false)

/-- The peer list delivered by the GET, when one was delivered. -/
def fetchedPeers (o : RemoteOracle) : List Peer :=
  match o.listPeers with
  | some (_, some ps) => ps
  | _ => []

/-- The record's `alias` field is a string equal to the desired alias
(the guard `alias, ok := peer["alias"].(string); ok && alias == myNodeName`). -/
def aliasMatches (myNodeName : String) (p : Peer) : Bool :=
  p.strField "alias" == some myNodeName

/-- Outcome of loading the Ed25519 key from the PEM file and deriving
the libp2p PeerID (file IO plus cryptography, represented by its
result): either the PeerID string or the wrapped error. -/
abbrev KeyLoadResult := Except String String

/-- Function `calculateMultiaddress` (main.go) after the blocking wait for the
key file: propagate any key-loading error, otherwise format
`/ip4/<ip>/tcp/<port>/p2p/<peerID>` exactly as the Sprintf does.  The
function inspects neither `myIp` nor `gossipProtocolPort`. -/
def calculateMultiaddress (keyLoad : KeyLoadResult) (myIp : String)
    (gossipProtocolPort : Int) : Except String String :=
  match keyLoad with
  | .error e => .error e
  | .ok peerID =>
    .ok ("/ip4/" ++ myIp ++ "/tcp/" ++ toString gossipProtocolPort ++ "/p2p/" ++ peerID)

/-- Command-line flags consumed by `main`. -/
structure Flags where
  mainNodeName : String
  iotaHornetSelector : String
  iotaHornetNs : String
  privateKeyFile : String
  deriving DecidableEq, Repr

/-- Raw process environment; `""` stands for unset (env/v9 `notEmpty`
rejects unset and empty alike, and the Go struct field keeps its zero
value `""` in that case). -/
structure RawEnv where
  myNodeName : String
  myIP : String
  deriving DecidableEq, Repr

/-- Struct `envConfig` after `env.Parse`: each variable that validates is
written into the struct; a failed `notEmpty` leaves the zero value. -/
structure EnvConfig where
  myNodeName : String
  myIP : String
  deriving DecidableEq, Repr

def effectiveEnv (e : RawEnv) : EnvConfig := ⟨e.myNodeName, e.myIP⟩

/-- Whether `env.Parse` reports an error (some `notEmpty` variable is
unset/empty).  `main` only logs this to stderr and continues. -/
def envParseFails (e : RawEnv) : Bool :=
  e.myNodeName == "" || e.myIP == ""

/-- How the process leaves `main`'s startup section. -/
inductive MainOutcome where
  | fatalExit
  | sleepForever
  | enterLoop (cfg : EnvConfig)
  deriving DecidableEq, Repr

/-- Startup control flow of `main` (main.go lines 52-104): an env-parse
failure is logged but NOT fatal; each empty required flag exits with
status 1; if the configured main node is this node the process enters
an infinite sleep loop before any k8s client is created, before the key
is loaded and before any peering call; otherwise it proceeds to client
creation, `calculateMultiaddress` and the reconciliation loop. -/
def mainStartup (f : Flags) (e : RawEnv) : MainOutcome :=
  if f.mainNodeName = "" then .fatalExit
  else if f.iotaHornetSelector = "" then .fatalExit
  else if f.iotaHornetNs = "" then .fatalExit
  else if f.privateKeyFile = "" then .fatalExit
  else if f.mainNodeName = (effectiveEnv e).myNodeName then .sleepForever
  else .enterLoop (effectiveEnv e)

/-- Split a character list at the FIRST occurrence of `delim`,
returning the parts strictly before and strictly after it. -/
def splitFirst (delim : List Char) : List Char → Option (List Char × List Char)
  | [] => none
  | c :: rest =>
    if delim.isPrefixOf (c :: rest) then some ([], (c :: rest).drop delim.length)
    else
      match splitFirst delim rest with
      | some (pre, post) => some (c :: pre, post)
      | none => none

/-- Parse a multiaddress by splitting on the fixed delimiters `/ip4/`,
`/tcp/`, `/p2p/` — the inverse direction of the Address Builder's
format string. -/
def parseMultiaddress (s : String) : Option (String × String × String) :=
  let cs := s.toList
  let ip4 := "/ip4/".toList
  if ip4.isPrefixOf cs then
    match splitFirst "/tcp/".toList (cs.drop ip4.length) with
    | none => none
    | some (ipCs, rest) =>
      match splitFirst "/p2p/".toList rest with
      | none => none
      | some (portCs, pidCs) => some (String.mk ipCs, String.mk portCs, String.mk pidCs)
  else none

/-- The maximal runs of non-dot characters (empties kept). -/
def splitDots : List Char → List (List Char)
  | [] => [[]]
  | c :: rest =>
    if c = '.' then [] :: splitDots rest
    else
      match splitDots rest with
      | p :: ps => (c :: p) :: ps
      | [] => [[c]]

/-- A decimal octet: nonempty, all digits, value at most 255. -/
def isOctet (cs : List Char) : Bool :=
  !cs.isEmpty && cs.all Char.isDigit &&
    decide (cs.foldl (fun n c => 10 * n + (c.toNat - 48)) 0 ≤ 255)

/-- Valid dotted-quad IPv4 string: exactly four octets separated by
dots. -/
def isValidIPv4 (s : String) : Bool :=
  match splitDots s.toList with
  | [a, b, c, d] => isOctet a && isOctet b && isOctet c && isOctet d
  | _ => false

/-! ### Concrete reconciliation scenarios (desired alias `node-b`,
desired address `/ip4/10.0.0.5/tcp/15600/p2p/Qm123`, following the
end-to-end scenarios of the specification) -/

/-- A remote record for `node-b` whose reconstructed address equals the
desired one. -/
def convergedRecord : Peer :=
  [("id", .jstr "Qm123"), ("alias", .jstr "node-b"),
   ("multiAddress", .jarr [.jstr "/ip4/10.0.0.5/tcp/15600"])]

/-- A stale remote record for `node-b` (different address, id `Qm999`). -/
def staleRecord : Peer :=
  [("id", .jstr "Qm999"), ("alias", .jstr "node-b"),
   ("multiAddress", .jarr [.jstr "/ip4/10.0.0.9/tcp/15600"])]

/-- A second stale record for `node-b` with id `Qm888`. -/
def staleRecord2 : Peer :=
  [("id", .jstr "Qm888"), ("alias", .jstr "node-b"),
   ("multiAddress", .jarr [.jstr "/ip4/10.0.0.8/tcp/15600"])]

/-- A record for `node-b` lacking the `multiAddress` field. -/
def fieldlessRecord : Peer := [("id", .jstr "Qm777"), ("alias", .jstr "node-b")]

def desiredAddr : String := "/ip4/10.0.0.5/tcp/15600/p2p/Qm123"

/-- List holds a stale record followed by the converged one; DELETE
answers 204, POST answers 200. -/
def oracleStaleThenConverged : RemoteOracle :=
  ⟨some (200, some [staleRecord, convergedRecord]), fun _ => some 204, some 200⟩

/-- List holds only the converged record. -/
def oracleConvergedOnly : RemoteOracle :=
  ⟨some (200, some [convergedRecord]), fun _ => none, none⟩

/-- List holds only the stale record; DELETE answers 204, POST answers
500. -/
def oracleStalePostFails : RemoteOracle :=
  ⟨some (200, some [staleRecord]), fun _ => some 204, some 500⟩

/-- List holds only the stale record; DELETE answers 204, POST answers
200. -/
def oracleStaleHappy : RemoteOracle :=
  ⟨some (200, some [staleRecord]), fun _ => some 204, some 200⟩

/-- List holds two stale records; DELETE answers 204, POST answers 200. -/
def oracleTwoStale : RemoteOracle :=
  ⟨some (200, some [staleRecord, staleRecord2]), fun _ => some 204, some 200⟩

/-- List holds only the record with the missing field. -/
def oracleFieldless : RemoteOracle :=
  ⟨some (200, some [fieldlessRecord]), fun _ => some 204, some 200⟩

/-- Empty peer list; POST answers 204 (a 2xx status other than 200). -/
def oraclePost204 : RemoteOracle :=
  ⟨some (200, some []), fun _ => none, some 204⟩

/-- An oracle that is never consulted. -/
def oracleUnused : RemoteOracle := ⟨none, fun _ => none, none⟩

/-! ### Behaviour of the scan loop -/

theorem peerLoop_skip (o : RemoteOracle) (my addr : String) (p : Peer)
    (rest : List Peer) (calls : List Call) (h : aliasMatches my p = false) :
    peerLoop o my addr (p :: rest) calls = peerLoop o my addr rest calls := by
  cases hs : p.strField "alias" with
  | none => simp [peerLoop, hs]
  | some a =>
    have hne : a ≠ my := by simpa [aliasMatches, hs] using h
    simp [peerLoop, hs, hne]

theorem peerLoop_skip_list (o : RemoteOracle) (my addr : String)
    (pre peers : List Peer) (calls : List Call)
    (h : ∀ p ∈ pre, aliasMatches my p = false) :
    peerLoop o my addr (pre ++ peers) calls = peerLoop o my addr peers calls := by
  induction pre with
  | nil => rfl
  | cons p ps ih =>
    rw [List.cons_append, peerLoop_skip o my addr p (ps ++ peers) calls
      (h p (List.mem_cons_self p ps))]
    exact ih fun q hq => h q (List.mem_cons_of_mem p hq)

theorem peerLoop_no_match (o : RemoteOracle) (my addr : String)
    (peers : List Peer) (calls : List Call)
    (h : ∀ p ∈ peers, aliasMatches my p = false) :
    peerLoop o my addr peers calls =
      (calls ++ [Call.postPeer addr my],
       match o.postPeer with
       | none => false
       | some st => st == 200) := by
  have := peerLoop_skip_list o my addr peers [] calls h
  rw [List.append_nil] at this
  rw [this]
  cases hop : o.postPeer <;> simp [peerLoop, hop]

/-- The scan loop only appends to the accumulated trace, and what it
appends holds at most one POST and at most one DELETE per record whose
alias matches the desired alias. -/
theorem peerLoop_trace (o : RemoteOracle) (my addr : String) :
    ∀ (peers : List Peer) (calls : List Call), ∃ extra : List Call,
      (peerLoop o my addr peers calls).1 = calls ++ extra ∧
      (extra.filter Call.isPost).length ≤ 1 ∧
      (extra.filter Call.isDelete).length ≤
        (peers.filter (aliasMatches my)).length := by
  intro peers
  induction peers with
  | nil =>
    intro calls
    refine ⟨[Call.postPeer addr my], ?_, by simp [Call.isPost], by simp [Call.isDelete]⟩
    cases hop : o.postPeer <;> simp [peerLoop, hop]
  | cons p ps ih =>
    intro calls
    by_cases hmatch : aliasMatches my p = true
    · have hs : p.strField "alias" = some my := by simpa [aliasMatches] using hmatch
      have hcount : ((p :: ps).filter (aliasMatches my)).length =
          (ps.filter (aliasMatches my)).length + 1 := by
        simp [List.filter_cons, hmatch, Nat.add_comm]
      cases hgm : getMultiaddressFromPeer p with
      | none => exact ⟨[], by simp [peerLoop, hs, hgm], by simp, by simp⟩
      | some m =>
        cases hid : p.strField "id" with
        | none => exact ⟨[], by simp [peerLoop, hs, hgm, hid], by simp, by simp⟩
        | some i =>
          by_cases heq : m ++ "/p2p/" ++ i = addr
          · exact ⟨[], by simp [peerLoop, hs, hgm, hid, heq], by simp, by simp⟩
          · cases hdel : o.deletePeer i with
            | none =>
              refine ⟨[Call.deletePeer i], ?_, by simp [Call.isPost], ?_⟩
              · simp [peerLoop, hs, hgm, hid, heq, hdel]
              · simp [Call.isDelete, hcount]
            | some st =>
              by_cases h204 : st = 204
              · subst h204
                obtain ⟨extra, h1, h2, h3⟩ := ih (calls ++ [Call.deletePeer i])
                refine ⟨Call.deletePeer i :: extra, ?_, ?_, ?_⟩
                · simp only [peerLoop, hs, hgm, hid, heq, hdel]
                  simp [heq, h1]
                · simpa [Call.isPost] using h2
                · have hl : ((Call.deletePeer i :: extra).filter Call.isDelete).length
                      = (extra.filter Call.isDelete).length + 1 := by
                    simp [List.filter_cons, Call.isDelete]
                  rw [hl, hcount]
                  exact Nat.add_le_add_right h3 1
              · refine ⟨[Call.deletePeer i], ?_, by simp [Call.isPost], ?_⟩
                · simp [peerLoop, hs, hgm, hid, heq, hdel, h204]
                · simp [Call.isDelete, hcount]
    · have hfalse : aliasMatches my p = false := by
        simpa using hmatch
      rw [peerLoop_skip o my addr p ps calls hfalse]
      obtain ⟨extra, h1, h2, h3⟩ := ih calls
      refine ⟨extra, h1, h2, ?_⟩
      simpa [List.filter_cons, hfalse] using h3

/-! ### Claim C1 -/

/-- Claim C1, counterexample.  The peer list `[staleRecord,
convergedRecord]` CONTAINS a record (`convergedRecord`) whose alias is
the desired alias and whose reconstructed address equals the desired
canonical address, and the cycle returns success — yet a DELETE (a
mutating call) is issued, because the stale record with the same alias
is scanned first.  This refutes the claim as stated (quantified over
every list containing such a record). -/
theorem tryPeering_converged_record_cex :
    aliasMatches "node-b" convergedRecord = true ∧
    getMultiaddressFromPeer convergedRecord = some "/ip4/10.0.0.5/tcp/15600" ∧
    convergedRecord.strField "id" = some "Qm123" ∧
    "/ip4/10.0.0.5/tcp/15600" ++ "/p2p/" ++ "Qm123" = desiredAddr ∧
    fetchedPeers oracleStaleThenConverged = [staleRecord, convergedRecord] ∧
    tryPeering (.ok [⟨"10.0.0.7"⟩]) oracleStaleThenConverged "node-b" desiredAddr =
      ([Call.getPeers, Call.deletePeer "Qm999"], true) :=
  ⟨rfl, rfl, rfl, rfl, rfl, rfl⟩

/-- Claim C1, amended: if the FIRST record of the peer list whose alias
equals the desired alias reconstructs (first advertised address +
"/p2p/" + id) to the desired canonical address, the cycle issues no
mutating call — its whole trace is the initial GET — and returns
success. -/
theorem tryPeering_first_match_converged (o : RemoteOracle) (pod : Pod)
    (my addr : String) (pre rest : List Peer) (good : Peer) (m i : String)
    (hip : pod.podIP ≠ "")
    (hlist : o.listPeers = some (200, some (pre ++ good :: rest)))
    (hpre : ∀ p ∈ pre, aliasMatches my p = false)
    (halias : good.strField "alias" = some my)
    (hm : getMultiaddressFromPeer good = some m)
    (hi : good.strField "id" = some i)
    (heq : m ++ "/p2p/" ++ i = addr) :
    tryPeering (.ok [pod]) o my addr = ([Call.getPeers], true) := by
  simp only [tryPeering, hlist, if_neg hip, if_pos rfl]
  rw [peerLoop_skip_list o my addr pre (good :: rest) [Call.getPeers] hpre]
  simp [peerLoop, halias, hm, hi, heq]

/-- Claim C1, witness: the amended theorem applied to the singleton
converged list. -/
theorem tryPeering_first_match_converged_witness :
    ("/ip4/10.0.0.5/tcp/15600" ++ "/p2p/" ++ "Qm123" = desiredAddr) ∧
    oracleConvergedOnly.listPeers = some (200, some ([] ++ convergedRecord :: [])) ∧
    tryPeering (.ok [⟨"10.0.0.7"⟩]) oracleConvergedOnly "node-b" desiredAddr =
      ([Call.getPeers], true) :=
  ⟨rfl, rfl,
    tryPeering_first_match_converged oracleConvergedOnly ⟨"10.0.0.7"⟩
      "node-b" desiredAddr [] [] convergedRecord "/ip4/10.0.0.5/tcp/15600" "Qm123"
      (by decide) rfl (by simp) rfl rfl rfl rfl⟩

/-! ### Claim C2 -/

/-- Claim C2, counterexample.  The peer list holds exactly one record
with the desired alias, its reconstructed address differs, and the
DELETE returns 204 — the hypotheses of the claim — and the DELETE and
the POST are issued in order as claimed; but the cycle returns FAILURE,
because the POST answered 500.  The claim's unconditional "and then
returns success" is refuted. -/
theorem tryPeering_stale_replace_cex :
    (fetchedPeers oracleStalePostFails).filter (aliasMatches "node-b") = [staleRecord] ∧
    getMultiaddressFromPeer staleRecord = some "/ip4/10.0.0.9/tcp/15600" ∧
    staleRecord.strField "id" = some "Qm999" ∧
    ("/ip4/10.0.0.9/tcp/15600" ++ "/p2p/" ++ "Qm999" ≠ desiredAddr) ∧
    oracleStalePostFails.deletePeer "Qm999" = some 204 ∧
    tryPeering (.ok [⟨"10.0.0.7"⟩]) oracleStalePostFails "node-b" desiredAddr =
      ([Call.getPeers, Call.deletePeer "Qm999", Call.postPeer desiredAddr "node-b"], false) :=
  ⟨rfl, rfl, rfl, by decide, rfl, rfl⟩

/-- Claim C2, amended: under the claim's hypotheses (a unique record
with the desired alias, reconstructing to a different address, DELETE
answered 204) AND the POST being answered 200, the cycle issues exactly
one DELETE keyed by that record's id followed by exactly one POST of
the desired address and alias, in that order, and returns success. -/
theorem tryPeering_stale_replace (o : RemoteOracle) (pod : Pod)
    (my addr : String) (pre rest : List Peer) (stale : Peer) (m i : String)
    (hip : pod.podIP ≠ "")
    (hlist : o.listPeers = some (200, some (pre ++ stale :: rest)))
    (hpre : ∀ p ∈ pre, aliasMatches my p = false)
    (hrest : ∀ p ∈ rest, aliasMatches my p = false)
    (halias : stale.strField "alias" = some my)
    (hm : getMultiaddressFromPeer stale = some m)
    (hi : stale.strField "id" = some i)
    (hne : m ++ "/p2p/" ++ i ≠ addr)
    (hdel : o.deletePeer i = some 204)
    (hpost : o.postPeer = some 200) :
    tryPeering (.ok [pod]) o my addr =
      ([Call.getPeers, Call.deletePeer i, Call.postPeer addr my], true) := by
  simp only [tryPeering, hlist, if_neg hip, if_pos rfl]
  rw [peerLoop_skip_list o my addr pre (stale :: rest) [Call.getPeers] hpre]
  simp only [peerLoop, halias, hm, hi, if_neg hne, hdel, if_pos rfl]
  rw [peerLoop_no_match o my addr rest ([Call.getPeers] ++ [Call.deletePeer i]) hrest]
  simp [hpost]

/-- Claim C2, witness: the amended theorem applied to the
specification's end-to-end scenario with a succeeding POST. -/
theorem tryPeering_stale_replace_witness :
    ("/ip4/10.0.0.9/tcp/15600" ++ "/p2p/" ++ "Qm999" ≠ desiredAddr) ∧
    oracleStaleHappy.deletePeer "Qm999" = some 204 ∧
    oracleStaleHappy.postPeer = some 200 ∧
    tryPeering (.ok [⟨"10.0.0.7"⟩]) oracleStaleHappy "node-b" desiredAddr =
      ([Call.getPeers, Call.deletePeer "Qm999", Call.postPeer desiredAddr "node-b"], true) :=
  ⟨by decide, rfl, rfl,
    tryPeering_stale_replace oracleStaleHappy ⟨"10.0.0.7"⟩ "node-b" desiredAddr
      [] [] staleRecord "/ip4/10.0.0.9/tcp/15600" "Qm999"
      (by decide) rfl (by simp) (by simp) rfl rfl rfl (by decide) rfl rfl⟩

/-! ### Claim C3 -/

/-- Claim C3, counterexample.  With two stale records carrying the
desired alias, one cycle issues TWO DELETEs (the claim allows at most
one): the full trace is GET, DELETE `Qm999`, DELETE `Qm888`, POST. -/
theorem tryPeering_two_deletes_cex :
    tryPeering (.ok [⟨"10.0.0.7"⟩]) oracleTwoStale "node-b" desiredAddr =
      ([Call.getPeers, Call.deletePeer "Qm999", Call.deletePeer "Qm888",
        Call.postPeer desiredAddr "node-b"], true) ∧
    ((tryPeering (.ok [⟨"10.0.0.7"⟩]) oracleTwoStale "node-b" desiredAddr).1.filter
      Call.isDelete).length = 2 :=
  ⟨rfl, rfl⟩

/-- Claim C3, amended: a single cycle issues at most one POST, and at
most one DELETE per fetched record whose alias equals the desired
alias (so several DELETEs are possible exactly when several records
share that alias); there is never a separate cleanup pass. -/
theorem tryPeering_mutation_bounds (k8s : K8sResult) (o : RemoteOracle)
    (my addr : String) :
    ((tryPeering k8s o my addr).1.filter Call.isPost).length ≤ 1 ∧
    ((tryPeering k8s o my addr).1.filter Call.isDelete).length ≤
      ((fetchedPeers o).filter (aliasMatches my)).length := by
  cases k8s with
  | err => simp [tryPeering]
  | ok pods =>
    rcases pods with _ | ⟨pod, _ | ⟨p2, rest⟩⟩
    · simp [tryPeering]
    · by_cases hip : pod.podIP = ""
      · simp [tryPeering, hip]
      · cases hlp : o.listPeers with
        | none => simp [tryPeering, hip, hlp, Call.isPost, Call.isDelete]
        | some pr =>
          obtain ⟨status, body⟩ := pr
          by_cases hst : status = 200
          · subst hst
            cases body with
            | none => simp [tryPeering, hip, hlp, Call.isPost, Call.isDelete]
            | some peers =>
              obtain ⟨extra, h1, h2, h3⟩ := peerLoop_trace o my addr peers [Call.getPeers]
              have hrw : tryPeering (.ok [pod]) o my addr =
                  peerLoop o my addr peers [Call.getPeers] := by
                simp [tryPeering, hip, hlp]
              have hfp : fetchedPeers o = peers := by simp [fetchedPeers, hlp]
              rw [hrw, h1, hfp]
              constructor
              · simpa [List.filter_append, Call.isPost] using h2
              · simpa [List.filter_append, Call.isDelete] using h3
          · simp [tryPeering, hip, hlp, hst, Call.isPost, Call.isDelete]
    · simp [tryPeering]

/-! ### Claim C4 -/

/-- Claim C4, counterexample.  The sole record has the desired alias
but no `multiAddress` field.  The claim says the cycle deletes it by
its identifier and falls through to the POST; the code instead aborts:
the trace is the GET alone (no DELETE, no POST) and the cycle fails. -/
theorem tryPeering_missing_fields_cex :
    aliasMatches "node-b" fieldlessRecord = true ∧
    getMultiaddressFromPeer fieldlessRecord = none ∧
    fetchedPeers oracleFieldless = [fieldlessRecord] ∧
    tryPeering (.ok [⟨"10.0.0.7"⟩]) oracleFieldless "node-b" desiredAddr =
      ([Call.getPeers], false) :=
  ⟨rfl, rfl, rfl, rfl⟩

/-- Claim C4, amended: when the first record carrying the desired alias
is missing a required field (no multiAddress list with a string first
element, or no string id), the cycle ABORTS: it returns failure with no
DELETE and no POST issued. -/
theorem tryPeering_missing_fields_aborts (o : RemoteOracle) (pod : Pod)
    (my addr : String) (pre rest : List Peer) (bad : Peer)
    (hip : pod.podIP ≠ "")
    (hlist : o.listPeers = some (200, some (pre ++ bad :: rest)))
    (hpre : ∀ p ∈ pre, aliasMatches my p = false)
    (halias : bad.strField "alias" = some my)
    (hbad : getMultiaddressFromPeer bad = none ∨ bad.strField "id" = none) :
    tryPeering (.ok [pod]) o my addr = ([Call.getPeers], false) := by
  simp only [tryPeering, hlist, if_neg hip, if_pos rfl]
  rw [peerLoop_skip_list o my addr pre (bad :: rest) [Call.getPeers] hpre]
  rcases hbad with hgm | hid
  · simp [peerLoop, halias, hgm]
  · cases hgm : getMultiaddressFromPeer bad with
    | none => simp [peerLoop, halias, hgm]
    | some m => simp [peerLoop, halias, hgm, hid]

/-- Claim C4, witness: the amended theorem applied to the fieldless
record scenario. -/
theorem tryPeering_missing_fields_aborts_witness :
    getMultiaddressFromPeer fieldlessRecord = none ∧
    tryPeering (.ok [⟨"10.0.0.7"⟩]) oracleFieldless "node-b" desiredAddr =
      ([Call.getPeers], false) :=
  ⟨rfl,
    tryPeering_missing_fields_aborts oracleFieldless ⟨"10.0.0.7"⟩ "node-b"
      desiredAddr [] [] fieldlessRecord (by decide) rfl (by simp) rfl (Or.inl rfl)⟩

/-! ### Claim C5 -/

/-- Claim C5, counterexample.  The POST is answered with status 204 — a
2xx status — and the cycle FAILS: the code accepts only exactly 200,
not every 2xx. -/
theorem tryPeering_post_2xx_cex :
    oraclePost204.postPeer = some 204 ∧
    tryPeering (.ok [⟨"10.0.0.7"⟩]) oraclePost204 "node-b" desiredAddr =
      ([Call.getPeers, Call.postPeer desiredAddr "node-b"], false) :=
  ⟨rfl, rfl⟩

/-- Claim C5, amended: when the create step is reached (no fetched
record carries the desired alias) and the POST is answered with status
`st`, the cycle succeeds iff `st` is exactly 200; every other status —
other 2xx statuses included — fails the cycle. -/
theorem tryPeering_create_status (o : RemoteOracle) (pod : Pod)
    (my addr : String) (peers : List Peer) (st : Nat)
    (hip : pod.podIP ≠ "")
    (hlist : o.listPeers = some (200, some peers))
    (hnone : ∀ p ∈ peers, aliasMatches my p = false)
    (hpost : o.postPeer = some st) :
    tryPeering (.ok [pod]) o my addr =
      ([Call.getPeers, Call.postPeer addr my], st == 200) := by
  simp only [tryPeering, hlist, if_neg hip, if_pos rfl]
  rw [peerLoop_no_match o my addr peers [Call.getPeers] hnone]
  simp [hpost]

/-- Claim C5, witness: the amended theorem applied to the empty list
with POST answered 204 (cycle fails). -/
theorem tryPeering_create_status_witness :
    oraclePost204.postPeer = some 204 ∧
    tryPeering (.ok [⟨"10.0.0.7"⟩]) oraclePost204 "node-b" desiredAddr =
      ([Call.getPeers, Call.postPeer desiredAddr "node-b"], false) :=
  ⟨rfl,
    tryPeering_create_status oraclePost204 ⟨"10.0.0.7"⟩ "node-b" desiredAddr
      [] 204 (by decide) rfl (by simp) rfl⟩

/-! ### Claim C6 -/

/-- Claim C6: when the directory lookup yields a number of pods other
than one, or the single pod has an empty IP, the cycle fails with an
empty call trace — no HTTP call reaches the peering service. -/
theorem tryPeering_directory_failure (pods : List Pod) (o : RemoteOracle)
    (my addr : String)
    (h : pods.length ≠ 1 ∨ ∃ pod, pods = [pod] ∧ pod.podIP = "") :
    tryPeering (.ok pods) o my addr = ([], false) := by
  rcases pods with _ | ⟨pod, _ | ⟨p2, rest⟩⟩
  · rfl
  · rcases h with hlen | ⟨q, hq, hipq⟩
    · exact absurd rfl hlen
    · have : pod = q := by injection hq
      subst this
      simp [tryPeering, hipq]
  · rfl

/-- Claim C6, witness: zero pods, and separately a single pod with an
empty IP. -/
theorem tryPeering_directory_failure_witness :
    tryPeering (.ok []) oracleUnused "node-b" desiredAddr = ([], false) ∧
    tryPeering (.ok [⟨""⟩]) oracleUnused "node-b" desiredAddr = ([], false) :=
  ⟨tryPeering_directory_failure [] oracleUnused "node-b" desiredAddr (Or.inl (by decide)),
   tryPeering_directory_failure [⟨""⟩] oracleUnused "node-b" desiredAddr
     (Or.inr ⟨⟨""⟩, rfl, rfl⟩)⟩

/-! ### Claim C7 -/

/-- Claim C7, failing input: all four flags are present but both
environment variables (MY_NODE_NAME, MY_IP) are unset.  `env.Parse`
reports an error, yet `main` only writes it to stderr and carries on:
startup reaches the reconciliation loop instead of exiting fatally.
The `notEmpty` tags declare both variables required, so the missing
`os.Exit` is a slip in the code, not in the specification. -/
theorem mainStartup_missing_env_not_fatal :
    envParseFails ⟨"", ""⟩ = true ∧
    mainStartup ⟨"main-node", "app=iota-hornet", "iota", "/app/p2pstore/identity.key"⟩
        ⟨"", ""⟩ = .enterLoop ⟨"", ""⟩ :=
  ⟨rfl, rfl⟩

/-! ### Claim C8 -/

/-- Claim C8, counterexample.  `calculateMultiaddress` is handed a
malformed IP and a negative port and SUCCEEDS, splicing both verbatim
into the address — there is no ConfigError on invalid inputs. -/
theorem calculateMultiaddress_no_validation_cex :
    calculateMultiaddress (.ok "QmPeer") "not-an-ip" (-5) =
      .ok "/ip4/not-an-ip/tcp/-5/p2p/QmPeer" :=
  rfl

/-- Claim C8, amended: the address construction validates neither the
IP string nor the port — with a loaded key it succeeds on every input,
formatting it verbatim, and its only failure mode is a key-loading
error, which it propagates unchanged. -/
theorem calculateMultiaddress_total (myIp : String) (port : Int) :
    (∀ peerID : String,
      calculateMultiaddress (.ok peerID) myIp port =
        .ok ("/ip4/" ++ myIp ++ "/tcp/" ++ toString port ++ "/p2p/" ++ peerID)) ∧
    (∀ e : String, calculateMultiaddress (.error e) myIp port = .error e) :=
  ⟨fun _ => rfl, fun _ => rfl⟩

/-! ### Claim C10 -/

/-- Claim C10: with all required flags present, when the configured
main-node name equals this node's name the startup path ends in the
infinite sleep loop — the branch taken before any k8s client is
created, before `calculateMultiaddress` runs and before any peering
call — so the process never performs a directory lookup, key loading,
or peering-service call. -/
theorem mainStartup_main_node_sleeps (f : Flags) (e : RawEnv)
    (h1 : f.mainNodeName ≠ "") (h2 : f.iotaHornetSelector ≠ "")
    (h3 : f.iotaHornetNs ≠ "") (h4 : f.privateKeyFile ≠ "")
    (h5 : f.mainNodeName = e.myNodeName) :
    mainStartup f e = .sleepForever := by
  have h6 : e.myNodeName ≠ "" := h5 ▸ h1
  simp [mainStartup, effectiveEnv, h1, h2, h3, h4, h5, h6]

/-- Claim C10, witness. -/
theorem mainStartup_main_node_sleeps_witness :
    mainStartup ⟨"node-a", "app=iota-hornet", "iota", "/app/p2pstore/identity.key"⟩
        ⟨"node-a", "10.0.0.5"⟩ = .sleepForever :=
  mainStartup_main_node_sleeps
    ⟨"node-a", "app=iota-hornet", "iota", "/app/p2pstore/identity.key"⟩
    ⟨"node-a", "10.0.0.5"⟩ (by decide) (by decide) (by decide) (by decide) rfl

/-! ### Round-trip of the multiaddress format (claim C9) -/

theorem isPrefixOf_append_self (l t : List Char) : l.isPrefixOf (l ++ t) = true := by
  induction l with
  | nil => simp [List.isPrefixOf]
  | cons c cs ih => simp [List.isPrefixOf, ih]

/-- Lemma: `splitFirst` cuts at the first occurrence of the delimiter when the
part before it is free of the delimiter's first character. -/
theorem splitFirst_of_append (d : Char) (ds ys zs : List Char)
    (h : ∀ c ∈ ys, c ≠ d) :
    splitFirst (d :: ds) (ys ++ ((d :: ds) ++ zs)) = some (ys, zs) := by
  induction ys with
  | nil =>
    rw [List.nil_append, List.cons_append, splitFirst]
    rw [if_pos (by rw [← List.cons_append]; exact isPrefixOf_append_self (d :: ds) zs)]
    rw [← List.cons_append, List.drop_left]
  | cons c cs ih =>
    have hc : c ≠ d := h c (List.mem_cons_self c cs)
    have hdc : (d == c) = false := beq_eq_false_iff_ne.mpr (Ne.symm hc)
    rw [List.cons_append, splitFirst]
    rw [if_neg (by simp [List.isPrefixOf, hdc])]
    rw [ih fun q hq => h q (List.mem_cons_of_mem c hq)]

theorem digitChar_ne_slash : ∀ m : Nat, m < 10 → Nat.digitChar m ≠ '/' := by decide

theorem toDigitsCore_ne_slash : ∀ (fuel n : Nat) (ds : List Char),
    (∀ c ∈ ds, c ≠ '/') → ∀ c ∈ Nat.toDigitsCore 10 fuel n ds, c ≠ '/' := by
  intro fuel
  induction fuel with
  | zero =>
    intro n ds h c hc
    simp only [Nat.toDigitsCore] at hc
    exact h c hc
  | succ f ih =>
    intro n ds h c hc
    have hd : Nat.digitChar (n % 10) ≠ '/' :=
      digitChar_ne_slash (n % 10) (Nat.mod_lt n (by decide))
    have hcons : ∀ q ∈ Nat.digitChar (n % 10) :: ds, q ≠ '/' := by
      intro q hq
      rcases List.mem_cons.mp hq with rfl | hq2
      · exact hd
      · exact h q hq2
    simp only [Nat.toDigitsCore] at hc
    by_cases h0 : n / 10 = 0
    · rw [if_pos h0] at hc
      exact hcons c hc
    · rw [if_neg h0] at hc
      exact ih (n / 10) (Nat.digitChar (n % 10) :: ds) hcons c hc

theorem natRepr_ne_slash (n : Nat) : ∀ c ∈ (Nat.repr n).toList, c ≠ '/' := by
  intro c hc
  have heq : (Nat.repr n).toList = Nat.toDigitsCore 10 (n + 1) n [] := rfl
  rw [heq] at hc
  exact toDigitsCore_ne_slash (n + 1) n [] (by simp) c hc

theorem intToString_pos_ne_slash (p : Int) (hp : 0 < p) :
    ∀ c ∈ (toString p).toList, c ≠ '/' := by
  cases p with
  | ofNat m => exact natRepr_ne_slash m
  | negSucc m =>
    rw [Int.negSucc_eq] at hp
    omega

theorem splitDots_ne_nil (cs : List Char) : splitDots cs ≠ [] := by
  induction cs with
  | nil => simp [splitDots]
  | cons c rest ih =>
    by_cases h : c = '.'
    · simp [splitDots, h]
    · simp only [splitDots, if_neg h]
      cases hsd : splitDots rest with
      | nil => exact absurd hsd ih
      | cons p ps => simp

/-- Every character of a list is a dot or lies in one of its
`splitDots` parts. -/
theorem mem_splitDots (cs : List Char) (c : Char) (hc : c ∈ cs) :
    c = '.' ∨ ∃ p ∈ splitDots cs, c ∈ p := by
  induction cs with
  | nil => cases hc
  | cons a rest ih =>
    by_cases ha : a = '.'
    · rcases List.mem_cons.mp hc with rfl | h
      · exact Or.inl ha
      · rcases ih h with h1 | ⟨p, hp, hcp⟩
        · exact Or.inl h1
        · exact Or.inr ⟨p, by simp [splitDots, ha, hp], hcp⟩
    · cases hsd : splitDots rest with
      | nil => exact absurd hsd (splitDots_ne_nil rest)
      | cons q qs =>
        rcases List.mem_cons.mp hc with rfl | h
        · exact Or.inr ⟨c :: q, by simp [splitDots, ha, hsd], by simp⟩
        · rcases ih h with h1 | ⟨p, hp, hcp⟩
          · exact Or.inl h1
          · rw [hsd] at hp
            rcases List.mem_cons.mp hp with rfl | hps
            · exact Or.inr ⟨a :: p, by simp [splitDots, ha, hsd], by simp [hcp]⟩
            · exact Or.inr ⟨p, by simp [splitDots, ha, hsd, hps], hcp⟩

theorem octet_mem_ne_slash (p : List Char) (hoct : isOctet p = true)
    (c : Char) (hc : c ∈ p) : c ≠ '/' := by
  have hall : p.all Char.isDigit = true := by
    simp only [isOctet, Bool.and_eq_true] at hoct
    exact hoct.1.2
  have hdig : c.isDigit = true := by
    rw [List.all_eq_true] at hall
    exact hall c hc
  intro heq
  rw [heq] at hdig
  exact absurd hdig (by decide)

theorem valid_ipv4_ne_slash (s : String) (h : isValidIPv4 s = true) :
    ∀ c ∈ s.toList, c ≠ '/' := by
  intro c hc
  rcases mem_splitDots s.toList c hc with h1 | ⟨p, hp, hcp⟩
  · rw [h1]; decide
  · unfold isValidIPv4 at h
    rcases hsd : splitDots s.toList with _ | ⟨a, _ | ⟨b, _ | ⟨c3, _ | ⟨d, _ | ⟨e, tl⟩⟩⟩⟩⟩ <;>
      rw [hsd] at h hp
    · cases h
    · cases h
    · cases h
    · cases h
    · simp only [Bool.and_eq_true] at h
      rcases List.mem_cons.mp hp with rfl | hp2
      · exact octet_mem_ne_slash p h.1.1.1 c hcp
      rcases List.mem_cons.mp hp2 with rfl | hp3
      · exact octet_mem_ne_slash p h.1.1.2 c hcp
      rcases List.mem_cons.mp hp3 with rfl | hp4
      · exact octet_mem_ne_slash p h.1.2 c hcp
      rcases List.mem_cons.mp hp4 with rfl | hp5
      · exact octet_mem_ne_slash p h.2 c hcp
      · cases hp5
    · cases h

/-- Evaluating `parseMultiaddress` on a string assembled from the three
delimiters and slash-free ip and port segments recovers the segments. -/
theorem parseMultiaddress_of_shape (ipCs portCs pidCs : List Char)
    (hip : ∀ c ∈ ipCs, c ≠ '/') (hport : ∀ c ∈ portCs, c ≠ '/') :
    parseMultiaddress
      (String.mk ("/ip4/".toList ++
        (ipCs ++ ("/tcp/".toList ++ (portCs ++ ("/p2p/".toList ++ pidCs)))))) =
      some (String.mk ipCs, String.mk portCs, String.mk pidCs) := by
  unfold parseMultiaddress
  have hmk : (String.mk ("/ip4/".toList ++
      (ipCs ++ ("/tcp/".toList ++ (portCs ++ ("/p2p/".toList ++ pidCs)))))).toList
      = "/ip4/".toList ++
        (ipCs ++ ("/tcp/".toList ++ (portCs ++ ("/p2p/".toList ++ pidCs)))) := rfl
  rw [hmk]
  rw [if_pos (isPrefixOf_append_self "/ip4/".toList _)]
  rw [List.drop_left]
  have h1 : splitFirst "/tcp/".toList
      (ipCs ++ ("/tcp/".toList ++ (portCs ++ ("/p2p/".toList ++ pidCs)))) =
      some (ipCs, portCs ++ ("/p2p/".toList ++ pidCs)) :=
    splitFirst_of_append '/' "tcp/".toList ipCs
      (portCs ++ ("/p2p/".toList ++ pidCs)) hip
  rw [h1]
  have h2 : splitFirst ['/', 'p', '2', 'p', '/']
      (portCs ++ '/' :: 'p' :: '2' :: 'p' :: '/' :: pidCs) = some (portCs, pidCs) :=
    splitFirst_of_append '/' ['p', '2', 'p', '/'] portCs pidCs hport
  simp [h2]

/-! ### Claim C9 -/

/-- Claim C9: for every valid IPv4 string, positive port and PeerID
string, the Address Builder's output splits back on the fixed
delimiters into exactly the same three components (the port recovered
as its decimal rendering). -/
theorem multiaddress_roundtrip (ip pid : String) (p : Int)
    (hip : isValidIPv4 ip = true) (hp : 0 < p) :
    (calculateMultiaddress (Except.ok pid) ip p).map parseMultiaddress =
      Except.ok (some (ip, toString p, pid)) := by
  have hips : ∀ c ∈ ip.toList, c ≠ '/' := valid_ipv4_ne_slash ip hip
  have hps : ∀ c ∈ (toString p).toList, c ≠ '/' := intToString_pos_ne_slash p hp
  have hshape :=
    parseMultiaddress_of_shape ip.toList (toString p).toList pid.toList hips hps
  have hstr : "/ip4/" ++ ip ++ "/tcp/" ++ toString p ++ "/p2p/" ++ pid =
      String.mk ("/ip4/".toList ++ (ip.toList ++ ("/tcp/".toList ++
        ((toString p).toList ++ ("/p2p/".toList ++ pid.toList))))) := by
    apply String.ext
    simp [String.data_append, String.toList]
  show Except.ok
      (parseMultiaddress ("/ip4/" ++ ip ++ "/tcp/" ++ toString p ++ "/p2p/" ++ pid)) = _
  rw [hstr, hshape]
  rfl

/-- Claim C9, witness: the round-trip at `10.0.0.5`, port 15600, PeerID
`Qm123`. -/
theorem multiaddress_roundtrip_witness :
    isValidIPv4 "10.0.0.5" = true ∧ (0 : Int) < 15600 ∧
    (calculateMultiaddress (Except.ok "Qm123") "10.0.0.5" 15600).map parseMultiaddress =
      Except.ok (some ("10.0.0.5", toString (15600 : Int), "Qm123")) :=
  ⟨by decide, by decide,
    multiaddress_roundtrip "10.0.0.5" "Qm123" 15600 (by decide) (by decide)⟩

end IotaPeerer
